import Mathlib

/-!
# comshim: the Shim counter / lock / worker state machine

A shallow embedding of `shim.go`.

The Go code is concurrent; the embedding is an interleaving model whose
steps are the sections of the source that no other goroutine can cut into:

* a call of `Add` is one step: its first half runs under the read lock, its
  second half under the write lock and re-tests `running` there;
* a call of `Done` is one step; it takes no lock, so it can fall between any
  two steps of the worker goroutine, also while that goroutine holds the
  mutex;
* the worker goroutine moves in separate steps: taking `s.m.Lock()` and
  testing the counter on line 124 (`workerTest`, `workerGrant`), entering
  `s.cond.Wait()` on line 125 (`workerPark`), and announcing a `Lock` call
  that readers keep waiting (`workerPend`).  `workerStep` is the special
  case of a pass through lines 123 to 125 that nothing cuts into.

State that the Go code keeps in the runtime is made explicit: who holds the
`RWMutex` (`readers`, `writer`) and who waits for it (`locking`), where the
goroutines started by `run` are (`ready`, `locking`, `checked`, `waiting`),
and how often `ole.CoInitializeEx` / `ole.CoUninitialize` have been called
(`inits`, `teardowns`).

The result of `ole.CoInitializeEx` is an input of the model: `none` for a nil
error, `some code` for an `*ole.OleError` with that code (the goroutine
asserts that type on line 101).

Library semantics used:

* `sync.RWMutex`: `RLock` is granted when no writer holds the mutex and no
  `Lock` call is waiting; `Lock` is granted when there is no writer, no reader
  and no other `Lock` call waiting.  A `Lock` call that finds readers waits
  for them and keeps later `RLock` calls out meanwhile.  An operation that
  cannot be granted yields `none`: the caller does not get past it in this
  state.
* `sync.Cond`: `Wait` puts the goroutine on the notify list, releases the
  mutex and parks; the goroutine resumes only after a `Broadcast`, and then
  has to take the mutex again; a `Broadcast` with nobody on the notify list
  is lost.
* the counter is an `int64` (`s.c.Add(int64(delta))`) and wraps around.
-/

namespace Comshim

/-- Error values returned by the package: `ErrNegativeCounter`,
`ErrAlreadyInitialized`, or the `*ole.OleError` that `ole.CoInitializeEx`
returned, identified by its code. -/
inductive Err where
  | ErrNegativeCounter
  | ErrAlreadyInitialized
  | OleError (code : Nat)
deriving DecidableEq, Repr

/-- The conversion `int64(x)`: the value of `x` in 64-bit two's complement. -/
def int64 (x : Int) : Int :=
  (x + 9223372036854775808) % 18446744073709551616 - 9223372036854775808

/-- The values of an `int64`: from -2^63 up to 2^63 - 1. -/
def inInt64 (x : Int) : Prop :=
  -9223372036854775808 ≤ x ∧ x < 9223372036854775808

/-- Modelled from the spec: the `Counter` type (its source file is not part of
the sources at hand). "A lock-free integer accumulator supporting atomic add
and read": the state of a counter is its current value. -/
abbrev Counter := Int

/-- Modelled from the spec: `Counter.Add(delta) -> newValue`, the atomic add.
The new value is both the result and the new state of the counter.  The
argument is an `int64` (`s.c.Add(int64(delta))` on line 82), so the sum is
taken in 64 bits. -/
def Counter.Add (c : Counter) (delta : Int) : Int := int64 (c + delta)

/-- Modelled from the spec: `Counter.Value() -> current`, the atomic read. -/
def Counter.Value (c : Counter) : Int := c

/-- The `Shim` struct together with the runtime state it controls.

* `readers`, `writer`: holders of `m sync.RWMutex`;
* `c`: the `Counter` field, given by its value; `running`: the flag;
* `ready`: goroutines started by `run` that are runnable and have not yet
  called `s.m.Lock()` (line 123, or the re-lock at the end of `cond.Wait`);
* `locking`: goroutines whose `s.m.Lock()` call waits for the readers to
  leave;
* `checked`: goroutines that hold the mutex, have found `s.c.Value() > 0` on
  line 124 and have not yet entered `s.cond.Wait()`;
* `waiting`: goroutines parked in `s.cond.Wait()` (the notify list of `cond`);
* `spawned`: number of goroutines started by `run` so far;
* `inits`: calls of `ole.CoInitializeEx`; `teardowns`: calls of
  `ole.CoUninitialize`. -/
structure Shim where
  readers : Nat
  writer : Bool
  c : Int
  running : Bool
  ready : Nat
  waiting : Nat
  spawned : Nat
  inits : Nat
  teardowns : Nat
  locking : Nat
  checked : Nat
deriving DecidableEq, Repr

/-- `New()`: the zero value of the struct; no goroutine exists. -/
def New : Shim :=
  { readers := 0, writer := false, c := 0, running := false,
    ready := 0, waiting := 0, spawned := 0, inits := 0, teardowns := 0,
    locking := 0, checked := 0 }

namespace Shim

/-- `s.m.RLock()`: cannot proceed (`none`) while a writer holds the mutex or
a `Lock` call is waiting for it. -/
def RLock (s : Shim) : Option Shim :=
  if s.writer || decide (0 < s.locking) then none
  else some { s with readers := s.readers + 1 }

/-- `s.m.RUnlock()`: fatal (`none`) when no reader holds the mutex. -/
def RUnlock (s : Shim) : Option Shim :=
  if s.readers = 0 then none else some { s with readers := s.readers - 1 }

/-- `s.m.Lock()`, granted at once: cannot proceed (`none`) while a writer or
any reader holds the mutex, or another `Lock` call is waiting for it. -/
def Lock (s : Shim) : Option Shim :=
  if s.writer || decide (0 < s.readers) || decide (0 < s.locking) then none
  else some { s with writer := true }

/-- `s.m.Unlock()`: fatal (`none`) when no writer holds the mutex. -/
def Unlock (s : Shim) : Option Shim :=
  if s.writer then some { s with writer := false } else none

/-- `s.cond.Broadcast()`: every goroutine parked in `cond.Wait` becomes
runnable.  Goroutines that are not on the notify list are not reached. -/
def Broadcast (s : Shim) : Shim :=
  { s with ready := s.ready + s.waiting, waiting := 0 }

/-- `func (s *Shim) add(delta int) error`. -/
def add (s : Shim) (delta : Int) : Option Err × Shim :=
  let value := Counter.Add s.c (int64 delta)
  let s := { s with c := value }
  let s := if value = 0 then s.Broadcast else s
  if value < 0 then (some Err.ErrNegativeCounter, s) else (none, s)

/-- `func (s *Shim) Done() error`: `return s.add(-1)`. -/
def Done (s : Shim) : Option Err × Shim :=
  s.add (-1)

/-- `func (s *Shim) run() error`, up to the point where `<-init` returns.
`hr` is what `ole.CoInitializeEx` returns on the new goroutine: `none` for
nil, `some code` for an `*ole.OleError` with that code.  On a nil error the
goroutine closes `init` and is left runnable in front of `s.m.Lock()`; on an
error it sends the error (after `ole.CoUninitialize()` for code 1, S_FALSE)
and returns. -/
def run (s : Shim) (hr : Option Nat) : Option Err × Shim :=
  let s := { s with spawned := s.spawned + 1, inits := s.inits + 1 }
  match hr with
  | some code =>
    if code = 0x00000001 then
      (some Err.ErrAlreadyInitialized, { s with teardowns := s.teardowns + 1 })
    else
      (some (Err.OleError code), s)
  | none => (none, { s with ready := s.ready + 1 })

/-- `func (s *Shim) Add(delta int) error`.  `none`: the call cannot complete
in this state (the mutex is not available).  The deferred `s.m.Unlock()` of
the second half runs at each of its returns. -/
def Add (s : Shim) (delta : Int) (hr : Option Nat) : Option (Option Err × Shim) :=
  (s.RLock).bind fun s =>
  if s.running then
    match s.add delta with
    | (some err, s) => some (some err, s)
    | (none, s) => (s.RUnlock).bind fun s => some (none, s)
  else
    (s.RUnlock).bind fun s =>
    (s.Lock).bind fun s =>
    match s.add delta with
    | (some err, s) => (s.Unlock).bind fun s => some (some err, s)
    | (none, s) =>
      if s.running then
        (s.Unlock).bind fun s => some (none, s)
      else
        match s.run hr with
        | (some err, s) => (s.Unlock).bind fun s => some (some err, s)
        | (none, s) =>
          let s := { s with running := true }
          (s.Unlock).bind fun s => some (none, s)

/-- Line 124 and what follows it when the test fails, run by a goroutine
that has just been granted `s.m.Lock()`: if `s.c.Value() > 0` the goroutine
goes on to `s.cond.Wait()`, still holding the mutex; otherwise `running` is
cleared, `ole.CoUninitialize()` is called, the mutex is released and the
goroutine ends. -/
def afterLock (s : Shim) : Option Shim :=
  if Counter.Value s.c > 0 then
    some { s with checked := s.checked + 1 }
  else
    let s := { s with running := false }
    let s := { s with teardowns := s.teardowns + 1 }
    s.Unlock

/-- A runnable goroutine calls `s.m.Lock()` (line 123, or the re-lock at the
end of `cond.Wait`), is granted it at once and goes through `afterLock`.
`none`: no goroutine is runnable, or the mutex is not free. -/
def workerTest (s : Shim) : Option Shim :=
  if s.ready = 0 then none
  else
    (s.Lock).bind fun s =>
    afterLock { s with ready := s.ready - 1 }

/-- A runnable goroutine calls `s.m.Lock()` while readers hold the mutex: the
call waits for them, and keeps later `RLock` calls out.  `none`: no goroutine
is runnable, no reader holds the mutex, or a writer or an earlier `Lock` call
is in front. -/
def workerPend (s : Shim) : Option Shim :=
  if s.ready = 0 || s.writer || decide (0 < s.locking) || decide (s.readers = 0) then none
  else some { s with ready := s.ready - 1, locking := s.locking + 1 }

/-- The waiting `s.m.Lock()` call of a goroutine is granted once the readers
have left; the goroutine goes through `afterLock`.  `none`: no call is
waiting, or a reader is still there. -/
def workerGrant (s : Shim) : Option Shim :=
  if s.locking = 0 || s.writer || decide (0 < s.readers) then none
  else afterLock { s with locking := s.locking - 1, writer := true }

/-- Line 125, `s.cond.Wait()`, by a goroutine that found `s.c.Value() > 0`:
it is put on the notify list, the mutex is released and the goroutine parks.
`none`: no goroutine is at that point. -/
def workerPark (s : Shim) : Option Shim :=
  if s.checked = 0 then none
  else
    (s.Unlock).bind fun s =>
    some { s with checked := s.checked - 1, waiting := s.waiting + 1 }

/-- One pass of a goroutine started by `run` through lines 123 to 129 that
no other goroutine cuts into: `workerTest`, followed at once by `workerPark`
when the counter was found above 0.  `none`: no goroutine is runnable, or the
mutex is not free. -/
def workerStep (s : Shim) : Option Shim :=
  (s.workerTest).bind fun t =>
  if t.checked = 0 then some t else t.workerPark

/-- The goroutines started by `run` that have not ended. -/
def live (s : Shim) : Nat :=
  s.ready + s.locking + s.checked + s.waiting

/-- The mutex lets a call of `Add` through, whatever the worker goroutine
does next: no writer holds it, no `Lock` call is waiting, no reader holds it
unless the Shim is running (the second half of `Add` takes `s.m.Lock()`), and
no goroutine is about to call `s.m.Lock()` while a reader holds it. -/
def admits (s : Shim) : Prop :=
  s.writer = false ∧ s.locking = 0 ∧ (s.running = false → s.readers = 0) ∧
    (0 < s.readers → s.ready = 0)

end Shim

/-- The steps of the interleaving model: a completed call of `Add`, a
completed call of `Done`, and the steps of the worker goroutine: `Wake` for
`workerStep`, `Test` for `workerTest`, `Pend` for `workerPend`, `Grant` for
`workerGrant`, `Park` for `workerPark`. -/
inductive Event where
  | Add (delta : Int) (hr : Option Nat)
  | Done
  | Wake
  | Test
  | Pend
  | Grant
  | Park
deriving DecidableEq, Repr

/-- A schedule run from `s`: the errors returned by the calls of `Add` and
`Done`, in order, and the final state.  A worker step that cannot be taken
leaves the state as it is.  `none`: a call of `Add` cannot complete. -/
def Shim.exec (s : Shim) : List Event → Option (List (Option Err) × Shim)
  | [] => some ([], s)
  | Event.Add delta hr :: es =>
    (s.Add delta hr).bind fun p =>
    (p.2.exec es).bind fun q => some (p.1 :: q.1, q.2)
  | Event.Done :: es =>
    (s.Done.2.exec es).bind fun q => some (s.Done.1 :: q.1, q.2)
  | Event.Wake :: es => ((s.workerStep).getD s).exec es
  | Event.Test :: es => ((s.workerTest).getD s).exec es
  | Event.Pend :: es => ((s.workerPend).getD s).exec es
  | Event.Grant :: es => ((s.workerGrant).getD s).exec es
  | Event.Park :: es => ((s.workerPark).getD s).exec es

/-- States reachable from `New()` by completed `Add` calls (any delta, any
outcome of `ole.CoInitializeEx`), `Done` calls and steps of the worker
goroutine. -/
inductive Reachable : Shim → Prop where
  | new : Reachable New
  | add (s : Shim) (delta : Int) (hr : Option Nat) (r : Option Err) (t : Shim) :
      Reachable s → s.Add delta hr = some (r, t) → Reachable t
  | done (s : Shim) : Reachable s → Reachable s.Done.2
  | test (s t : Shim) : Reachable s → s.workerTest = some t → Reachable t
  | pend (s t : Shim) : Reachable s → s.workerPend = some t → Reachable t
  | grant (s t : Shim) : Reachable s → s.workerGrant = some t → Reachable t
  | park (s t : Shim) : Reachable s → s.workerPark = some t → Reachable t

/-- States reachable from `New()` as in `Reachable`, by calls none of which
returned `ErrNegativeCounter`. -/
inductive ReachableNoNeg : Shim → Prop where
  | new : ReachableNoNeg New
  | add (s : Shim) (delta : Int) (hr : Option Nat) (r : Option Err) (t : Shim) :
      ReachableNoNeg s → s.Add delta hr = some (r, t) →
      r ≠ some Err.ErrNegativeCounter → ReachableNoNeg t
  | done (s : Shim) : ReachableNoNeg s → s.Done.1 ≠ some Err.ErrNegativeCounter →
      ReachableNoNeg s.Done.2
  | test (s t : Shim) : ReachableNoNeg s → s.workerTest = some t → ReachableNoNeg t
  | pend (s t : Shim) : ReachableNoNeg s → s.workerPend = some t → ReachableNoNeg t
  | grant (s t : Shim) : ReachableNoNeg s → s.workerGrant = some t → ReachableNoNeg t
  | park (s t : Shim) : ReachableNoNeg s → s.workerPark = some t → ReachableNoNeg t

/-- A schedule of `Add(1)` calls whose `ole.CoInitializeEx` succeeds, `Done()`
calls and worker steps, in which each `Done` has an earlier `Add` of its own
and, at the end, each `Add` has its `Done`; `d` is the number of `Add` calls
still unmatched at the start. -/
def paired : Nat → List Event → Bool
  | d, [] => d == 0
  | d, Event.Add delta hr :: es => delta == 1 && hr == none && paired (d + 1) es
  | d, Event.Done :: es => decide (0 < d) && paired (d - 1) es
  | d, _ :: es => paired d es

/-- The schedule of the usage example, for `n` objects: `n` calls of `Add(1)`
with `ole.CoInitializeEx` succeeding, then `n` calls of `Done()`, and only
then a pass of the worker goroutine. -/
def usage (n : Nat) : List Event :=
  List.replicate n (Event.Add 1 none) ++ List.replicate n Event.Done ++ [Event.Wake]

/-- The state left by `add`: the counter moved by `delta`, and the parked
goroutines released when the new value is zero. -/
def Shim.bumped (s : Shim) (delta : Int) : Shim :=
  { s with c := Counter.Add s.c (int64 delta),
           ready := if Counter.Add s.c (int64 delta) = 0 then s.ready + s.waiting
                    else s.ready,
           waiting := if Counter.Add s.c (int64 delta) = 0 then 0 else s.waiting }

/-- The Shim after its first successful start, with counter `c`, the mutex
free and the worker goroutine runnable. -/
def started (c : Int) : Shim :=
  { readers := 0, writer := false, c := c, running := true,
    ready := 1, waiting := 0, spawned := 1, inits := 1, teardowns := 0,
    locking := 0, checked := 0 }

/-- The Shim after `New(); Add(1)` when the worker goroutine has taken the
mutex and found the counter above 0 (line 124) but has not yet entered
`s.cond.Wait()`; `c` is the counter now. -/
def tested (c : Int) : Shim :=
  { started c with writer := true, ready := 0, checked := 1 }

/-- The Shim after `New(); Add(1)` when the worker goroutine is parked in
`s.cond.Wait()`; `c` is the counter now. -/
def parked (c : Int) : Shim :=
  { started c with ready := 0, waiting := 1 }

end Comshim

namespace Comshim

/-! ## Closed forms of the operations -/

theorem int64_eq_self (x : Int) (h : inInt64 x) : int64 x = x := by
  unfold inInt64 at h
  unfold int64
  omega

theorem Counter_Add_exact (c delta : Int) (hd : inInt64 delta) (hs : inInt64 (c + delta)) :
    Counter.Add c (int64 delta) = c + delta := by
  rw [int64_eq_self delta hd]
  exact int64_eq_self (c + delta) hs

theorem add_eq (s : Shim) (delta : Int) :
    s.add delta =
      (if Counter.Add s.c (int64 delta) < 0 then some Err.ErrNegativeCounter else none,
        s.bumped delta) := by
  obtain ⟨readers, writer, c, running, ready, waiting, spawned, inits, teardowns,
    locking, checked⟩ := s
  simp only [Shim.add, Shim.bumped]
  generalize Counter.Add c (int64 delta) = v
  by_cases hneg : v < 0
  · have h0 : v ≠ 0 := by omega
    simp [hneg, h0]
  · by_cases h0 : v = 0
    · simp [h0, Shim.Broadcast]
    · simp [hneg, h0]

theorem Done_eq (s : Shim) :
    s.Done =
      (if Counter.Add s.c (int64 (-1)) < 0 then some Err.ErrNegativeCounter else none,
        s.bumped (-1)) := by
  simp [Shim.Done, add_eq]

theorem Add_running (s : Shim) (delta : Int) (hr : Option Nat)
    (hw : s.writer = false) (hp : s.locking = 0) (hrun : s.running = true) :
    s.Add delta hr =
      if Counter.Add s.c (int64 delta) < 0 then
        some (some Err.ErrNegativeCounter, { s.bumped delta with readers := s.readers + 1 })
      else some (none, s.bumped delta) := by
  obtain ⟨readers, writer, c, running, ready, waiting, spawned, inits, teardowns,
    locking, checked⟩ := s
  simp only at hw hp hrun
  subst hw hp hrun
  by_cases hneg : Counter.Add c (int64 delta) < 0
  · simp [Shim.Add, Shim.RLock, add_eq, Shim.bumped, hneg]
  · simp [Shim.Add, Shim.RLock, add_eq, Shim.bumped, hneg, Shim.RUnlock]

theorem Add_idle (s : Shim) (delta : Int) (hr : Option Nat)
    (hw : s.writer = false) (hp : s.locking = 0) (hrun : s.running = false)
    (hrd : s.readers = 0) :
    s.Add delta hr =
      if Counter.Add s.c (int64 delta) < 0 then
        some (some Err.ErrNegativeCounter, s.bumped delta)
      else
        match hr with
        | none =>
          some (none, { s.bumped delta with
            running := true, ready := (s.bumped delta).ready + 1,
            spawned := s.spawned + 1, inits := s.inits + 1 })
        | some code =>
          if code = 1 then
            some (some Err.ErrAlreadyInitialized, { s.bumped delta with
              spawned := s.spawned + 1, inits := s.inits + 1,
              teardowns := s.teardowns + 1 })
          else
            some (some (Err.OleError code), { s.bumped delta with
              spawned := s.spawned + 1, inits := s.inits + 1 }) := by
  obtain ⟨readers, writer, c, running, ready, waiting, spawned, inits, teardowns,
    locking, checked⟩ := s
  simp only at hw hp hrun hrd
  subst hw hp hrun hrd
  by_cases hneg : Counter.Add c (int64 delta) < 0
  · simp [Shim.Add, Shim.RLock, add_eq, Shim.bumped, hneg, Shim.RUnlock, Shim.Lock,
      Shim.Unlock]
  · rcases hr with _ | code
    · simp [Shim.Add, Shim.RLock, add_eq, Shim.bumped, hneg, Shim.RUnlock, Shim.Lock,
        Shim.Unlock, Shim.run]
    · by_cases hc : code = 1
      · simp [Shim.Add, Shim.RLock, add_eq, Shim.bumped, hneg, Shim.RUnlock, Shim.Lock,
          Shim.Unlock, Shim.run, hc]
      · simp [Shim.Add, Shim.RLock, add_eq, Shim.bumped, hneg, Shim.RUnlock, Shim.Lock,
          Shim.Unlock, Shim.run, hc]

theorem Add_blocked (s : Shim) (delta : Int) (hr : Option Nat)
    (h : s.writer = true ∨ 0 < s.locking ∨ (s.running = false ∧ 0 < s.readers)) :
    s.Add delta hr = none := by
  obtain ⟨readers, writer, c, running, ready, waiting, spawned, inits, teardowns,
    locking, checked⟩ := s
  rcases h with h | h | ⟨h1, h2⟩
  · simp only at h
    subst h
    simp [Shim.Add, Shim.RLock]
  · simp only at h
    simp [Shim.Add, Shim.RLock, h]
  · simp only at h1 h2
    subst h1
    by_cases hrl : (writer || decide (0 < locking)) = true
    · simp [Shim.Add, Shim.RLock, hrl]
    · simp only [Shim.Add, Shim.RLock, hrl]
      simp [Shim.RUnlock, Shim.Lock, h2]

theorem Add_enters (s : Shim) (delta : Int) (hr : Option Nat) (r : Option Err) (t : Shim)
    (h : s.Add delta hr = some (r, t)) :
    s.writer = false ∧ s.locking = 0 ∧ (s.running = false → s.readers = 0) := by
  refine ⟨?_, ?_, ?_⟩
  · cases hw : s.writer with
    | false => rfl
    | true => rw [Add_blocked s delta hr (Or.inl hw)] at h; cases h
  · by_contra hne
    rw [Add_blocked s delta hr (Or.inr (Or.inl (by omega)))] at h
    cases h
  · intro hrun
    by_cases hrd : 0 < s.readers
    · rw [Add_blocked s delta hr (Or.inr (Or.inr ⟨hrun, hrd⟩))] at h; cases h
    · omega

theorem bumped_live (s : Shim) (delta : Int) :
    (s.bumped delta).ready + (s.bumped delta).waiting = s.ready + s.waiting := by
  simp only [Shim.bumped]
  split <;> simp

/-- What a completed `Add` does to the counter, to its result and to the
goroutines: it returns `ErrNegativeCounter` exactly when the new counter is
negative, and it starts a goroutine only when the Shim was not running. -/
theorem Add_post (s : Shim) (delta : Int) (hr : Option Nat) (r : Option Err) (t : Shim)
    (h : s.Add delta hr = some (r, t)) :
    t.c = Counter.Add s.c (int64 delta) ∧
    (r = some Err.ErrNegativeCounter ↔ Counter.Add s.c (int64 delta) < 0) ∧
    t.locking = s.locking ∧ t.checked = s.checked ∧
    ((s.running = true ∧ t.running = true ∧ t.ready + t.waiting = s.ready + s.waiting ∧
        t.spawned = s.spawned ∧ t.inits = s.inits) ∨
     (s.running = false ∧ t.running = false ∧
        t.ready + t.waiting = s.ready + s.waiting) ∨
     (s.running = false ∧ t.running = true ∧
        t.ready + t.waiting = s.ready + s.waiting + 1)) := by
  obtain ⟨hw, hp, hrd⟩ := Add_enters s delta hr r t h
  have hb := bumped_live s delta
  cases hrun : s.running with
  | true =>
    rw [Add_running s delta hr hw hp hrun] at h
    by_cases hneg : Counter.Add s.c (int64 delta) < 0
    · simp only [hneg, if_true, Option.some.injEq, Prod.mk.injEq] at h
      obtain ⟨h1, h2⟩ := h
      subst h1 h2
      exact ⟨rfl, by simp [hneg], rfl, rfl, Or.inl ⟨rfl, hrun, hb, rfl, rfl⟩⟩
    · simp only [hneg, if_false, Option.some.injEq, Prod.mk.injEq] at h
      obtain ⟨h1, h2⟩ := h
      subst h1 h2
      exact ⟨rfl, by simp [hneg], rfl, rfl, Or.inl ⟨rfl, hrun, hb, rfl, rfl⟩⟩
  | false =>
    rw [Add_idle s delta hr hw hp hrun (hrd hrun)] at h
    by_cases hneg : Counter.Add s.c (int64 delta) < 0
    · simp only [hneg, if_true, Option.some.injEq, Prod.mk.injEq] at h
      obtain ⟨h1, h2⟩ := h
      subst h1 h2
      exact ⟨rfl, by simp [hneg], rfl, rfl, Or.inr (Or.inl ⟨rfl, hrun, hb⟩)⟩
    · rcases hr with _ | code
      · simp only [hneg, if_false, Option.some.injEq, Prod.mk.injEq] at h
        obtain ⟨h1, h2⟩ := h
        subst h1 h2
        refine ⟨rfl, by simp [hneg], rfl, rfl, Or.inr (Or.inr ⟨rfl, rfl, ?_⟩)⟩
        show (s.bumped delta).ready + 1 + (s.bumped delta).waiting = _
        omega
      · by_cases hc : code = 1
        · simp only [hneg, hc, if_false, if_true, Option.some.injEq, Prod.mk.injEq] at h
          obtain ⟨h1, h2⟩ := h
          subst h1 h2
          exact ⟨rfl, by simp [hneg], rfl, rfl, Or.inr (Or.inl ⟨rfl, hrun, hb⟩)⟩
        · simp only [hneg, hc, if_false, Option.some.injEq, Prod.mk.injEq] at h
          obtain ⟨h1, h2⟩ := h
          subst h1 h2
          exact ⟨rfl, by simp [hneg], rfl, rfl, Or.inr (Or.inl ⟨rfl, hrun, hb⟩)⟩

/-- What `afterLock` does: the counter is left alone, and either the
goroutine goes on to `cond.Wait` or it clears `running` and ends. -/
theorem afterLock_post (s t : Shim) (h : s.afterLock = some t) :
    t.c = s.c ∧ t.ready = s.ready ∧ t.locking = s.locking ∧ t.waiting = s.waiting ∧
    ((t.running = s.running ∧ t.checked = s.checked + 1) ∨
     (t.running = false ∧ t.checked = s.checked)) := by
  unfold Shim.afterLock at h
  split at h
  · simp only [Option.some.injEq] at h
    subst h
    exact ⟨rfl, rfl, rfl, rfl, Or.inl ⟨rfl, rfl⟩⟩
  · simp only [Shim.Unlock] at h
    split at h
    · simp only [Option.some.injEq] at h
      subst h
      exact ⟨rfl, rfl, rfl, rfl, Or.inr ⟨rfl, rfl⟩⟩
    · cases h

theorem workerTest_post (s t : Shim) (h : s.workerTest = some t) :
    t.c = s.c ∧ 0 < s.ready ∧ t.ready = s.ready - 1 ∧ t.locking = s.locking ∧
    t.waiting = s.waiting ∧
    ((t.running = s.running ∧ t.checked = s.checked + 1) ∨
     (t.running = false ∧ t.checked = s.checked)) := by
  unfold Shim.workerTest at h
  split at h
  · cases h
  · rename_i hready
    cases hl : s.Lock with
    | none => rw [hl] at h; cases h
    | some u =>
      rw [hl] at h
      simp only [Option.some_bind] at h
      have hu : u = { s with writer := true } := by
        unfold Shim.Lock at hl
        split at hl
        · cases hl
        · simp only [Option.some.injEq] at hl
          exact hl.symm
      subst hu
      obtain ⟨h1, h2, h3, h4, h5⟩ := afterLock_post _ t h
      exact ⟨h1, by omega, h2, h3, h4, h5⟩

theorem workerGrant_post (s t : Shim) (h : s.workerGrant = some t) :
    t.c = s.c ∧ 0 < s.locking ∧ t.ready = s.ready ∧ t.locking = s.locking - 1 ∧
    t.waiting = s.waiting ∧
    ((t.running = s.running ∧ t.checked = s.checked + 1) ∨
     (t.running = false ∧ t.checked = s.checked)) := by
  unfold Shim.workerGrant at h
  split at h
  · cases h
  · rename_i hcond
    have hl : s.locking ≠ 0 := by
      intro h0
      simp [h0] at hcond
    obtain ⟨h1, h2, h3, h4, h5⟩ := afterLock_post _ t h
    exact ⟨h1, by omega, h2, h3, h4, h5⟩

theorem workerPend_post (s t : Shim) (h : s.workerPend = some t) :
    t.c = s.c ∧ 0 < s.ready ∧ t.ready = s.ready - 1 ∧ t.locking = s.locking + 1 ∧
    t.waiting = s.waiting ∧ t.checked = s.checked ∧ t.running = s.running := by
  unfold Shim.workerPend at h
  split at h
  · cases h
  · rename_i hcond
    have hl : s.ready ≠ 0 := by
      intro h0
      simp [h0] at hcond
    simp only [Option.some.injEq] at h
    subst h
    exact ⟨rfl, by omega, rfl, rfl, rfl, rfl, rfl⟩

theorem workerPark_post (s t : Shim) (h : s.workerPark = some t) :
    t.c = s.c ∧ 0 < s.checked ∧ t.ready = s.ready ∧ t.locking = s.locking ∧
    t.waiting = s.waiting + 1 ∧ t.checked = s.checked - 1 ∧ t.running = s.running := by
  unfold Shim.workerPark at h
  split at h
  · cases h
  · rename_i hcond
    simp only [Shim.Unlock] at h
    split at h
    · simp only [Option.some_bind, Option.some.injEq] at h
      subst h
      exact ⟨rfl, by omega, rfl, rfl, rfl, rfl, rfl⟩
    · cases h

/-- The number of live goroutines is 1 while `running` is set and 0
otherwise, in every reachable state. -/
theorem Reachable_live (s : Shim) (h : Reachable s) :
    s.live = (if s.running = true then 1 else 0) := by
  induction h with
  | new => rfl
  | add s delta hr r t _ hadd ih =>
    obtain ⟨_, _, hl, hc, hcase⟩ := Add_post s delta hr r t hadd
    unfold Shim.live at ih ⊢
    rcases hcase with ⟨h1, h2, h3, _, _⟩ | ⟨h1, h2, h3⟩ | ⟨h1, h2, h3⟩
    · rw [h1] at ih
      rw [h2]
      simp only [if_true] at ih ⊢
      omega
    · rw [h1] at ih
      rw [h2]
      simp only [Bool.false_eq_true, if_false] at ih ⊢
      omega
    · rw [h1] at ih
      rw [h2]
      simp only [Bool.false_eq_true, if_false, if_true] at ih ⊢
      omega
  | done s _ ih =>
    rw [Done_eq]
    unfold Shim.live at ih ⊢
    have hb := bumped_live s (-1)
    show (s.bumped (-1)).ready + s.locking + s.checked + (s.bumped (-1)).waiting =
      (if s.running = true then 1 else 0)
    omega
  | test s t _ hstep ih =>
    obtain ⟨_, h1, h2, h3, h4, hcase⟩ := workerTest_post s t hstep
    unfold Shim.live at ih ⊢
    cases hrun : s.running with
    | false =>
      rw [hrun] at ih
      simp only [Bool.false_eq_true, if_false] at ih
      omega
    | true =>
      rw [hrun] at ih
      simp only [if_true] at ih
      rcases hcase with ⟨h5, h6⟩ | ⟨h5, h6⟩
      · rw [h5, hrun]
        simp only [if_true]
        omega
      · rw [h5]
        simp only [Bool.false_eq_true, if_false]
        omega
  | pend s t _ hstep ih =>
    obtain ⟨_, h1, h2, h3, h4, h5, h6⟩ := workerPend_post s t hstep
    unfold Shim.live at ih ⊢
    rw [h6]
    omega
  | grant s t _ hstep ih =>
    obtain ⟨_, h1, h2, h3, h4, hcase⟩ := workerGrant_post s t hstep
    unfold Shim.live at ih ⊢
    cases hrun : s.running with
    | false =>
      rw [hrun] at ih
      simp only [Bool.false_eq_true, if_false] at ih
      omega
    | true =>
      rw [hrun] at ih
      simp only [if_true] at ih
      rcases hcase with ⟨h5, h6⟩ | ⟨h5, h6⟩
      · rw [h5, hrun]
        simp only [if_true]
        omega
      · rw [h5]
        simp only [Bool.false_eq_true, if_false]
        omega
  | park s t _ hstep ih =>
    obtain ⟨_, h1, h2, h3, h4, h5, h6⟩ := workerPark_post s t hstep
    unfold Shim.live at ih ⊢
    rw [h6]
    omega

end Comshim

namespace Comshim

/-! ## The claims -/

/-- C1: in every state in which the mutex lets `Add` through (`admits`), and
without integer overflow (`delta` and `c + delta` are `int64` values),
`Add(delta)` returns, and what it returns is `ErrNegativeCounter` if and only
if `c + delta < 0`; in that case `ole.CoInitializeEx` is not called and no
goroutine is started or woken.  `Done()` on a Shim whose counter is 0 returns
`ErrNegativeCounter` and starts no goroutine either. -/
theorem Add_ErrNegativeCounter_iff (s : Shim) (delta : Int) (hr : Option Nat)
    (hm : s.admits) (hd : inInt64 delta) (hsum : inInt64 (s.c + delta)) :
    (∃ r t, s.Add delta hr = some (r, t) ∧
      (r = some Err.ErrNegativeCounter ↔ s.c + delta < 0) ∧
      (s.c + delta < 0 → t.inits = s.inits ∧ t.spawned = s.spawned ∧
        t.ready = s.ready ∧ t.waiting = s.waiting ∧ t.locking = s.locking ∧
        t.checked = s.checked ∧ t.running = s.running)) ∧
    (s.c = 0 → s.Done.1 = some Err.ErrNegativeCounter ∧ s.Done.2.inits = s.inits ∧
      s.Done.2.spawned = s.spawned ∧ s.Done.2.ready = s.ready ∧
      s.Done.2.waiting = s.waiting ∧ s.Done.2.locking = s.locking ∧
      s.Done.2.checked = s.checked ∧ s.Done.2.running = s.running) := by
  obtain ⟨hw, hp, hrd, _⟩ := hm
  have hv := Counter_Add_exact s.c delta hd hsum
  constructor
  · cases hrun : s.running with
    | true =>
      rw [Add_running s delta hr hw hp hrun, hv]
      by_cases hneg : s.c + delta < 0
      · have h0 : s.c + delta ≠ 0 := by omega
        simp only [hneg, if_true]
        refine ⟨_, _, rfl, ?_, ?_⟩ <;> simp [hneg, h0, Shim.bumped, hrun, hv]
      · simp [hneg]
    | false =>
      rw [Add_idle s delta hr hw hp hrun (hrd hrun), hv]
      by_cases hneg : s.c + delta < 0
      · have h0 : s.c + delta ≠ 0 := by omega
        simp only [hneg, if_true]
        refine ⟨_, _, rfl, ?_, ?_⟩ <;> simp [hneg, h0, Shim.bumped, hrun, hv]
      · rcases hr with _ | code
        · simp [hneg]
        · by_cases hc : code = 1
          · simp [hneg, hc]
          · simp [hneg, hc]
  · intro hc
    have hm1 : Counter.Add s.c (int64 (-1)) = -1 := by
      rw [hc]
      decide
    rw [Done_eq]
    simp [hm1, Shim.bumped]

/-- Witness of C1 at `New()` with `delta = -1`. -/
theorem Add_ErrNegativeCounter_iff_witness :
    New.admits ∧ inInt64 (-1) ∧ inInt64 (New.c + -1) ∧
    ((∃ r t, New.Add (-1) none = some (r, t) ∧
      (r = some Err.ErrNegativeCounter ↔ New.c + -1 < 0) ∧
      (New.c + -1 < 0 → t.inits = New.inits ∧ t.spawned = New.spawned ∧
        t.ready = New.ready ∧ t.waiting = New.waiting ∧ t.locking = New.locking ∧
        t.checked = New.checked ∧ t.running = New.running)) ∧
    (New.c = 0 → New.Done.1 = some Err.ErrNegativeCounter ∧ New.Done.2.inits = New.inits ∧
      New.Done.2.spawned = New.spawned ∧ New.Done.2.ready = New.ready ∧
      New.Done.2.waiting = New.waiting ∧ New.Done.2.locking = New.locking ∧
      New.Done.2.checked = New.checked ∧ New.Done.2.running = New.running)) :=
  ⟨⟨rfl, rfl, fun _ => rfl, fun _ => rfl⟩, ⟨by decide, by decide⟩, ⟨by decide, by decide⟩,
    Add_ErrNegativeCounter_iff New (-1) none ⟨rfl, rfl, fun _ => rfl, fun _ => rfl⟩
      ⟨by decide, by decide⟩ ⟨by decide, by decide⟩⟩

/-- C2, counterexample: `Done()` on the fresh Shim (counter 0) returns
`ErrNegativeCounter` and leaves the counter at -1, and so does `Add(-1)`;
the state with counter -1 is reachable from `New()`. -/
theorem counter_negative_after_error :
    New.c = 0 ∧
    New.Done.1 = some Err.ErrNegativeCounter ∧ New.Done.2.c = -1 ∧
    New.Add (-1) none = some (some Err.ErrNegativeCounter, { New with c := -1 }) ∧
    Reachable { New with c := -1 } ∧
    ¬ (∀ s : Shim, Reachable s → 0 ≤ s.c) := by
  have hreach : Reachable { New with c := -1 } := Reachable.done New Reachable.new
  refine ⟨rfl, rfl, rfl, rfl, hreach, ?_⟩
  intro h
  exact absurd (h _ hreach) (by decide)

/-- C2, amended: an adjustment that would drive the counter below zero is
reported and applied all the same.  When the mutex lets `Add` through
(`admits`), there is no integer overflow (`delta` and `c + delta` are `int64`
values) and `c + delta < 0`, `Add(delta)` returns `ErrNegativeCounter` and the
counter is `c + delta`; `Done()` at counter 0 returns `ErrNegativeCounter` and
the counter is -1.  The counter is non-negative in every state reachable from
`New()` by calls none of which returned `ErrNegativeCounter`. -/
theorem negative_adjustment_applied :
    (∀ (s : Shim) (delta : Int) (hr : Option Nat),
      s.admits → inInt64 delta → inInt64 (s.c + delta) → s.c + delta < 0 →
      ∃ t, s.Add delta hr = some (some Err.ErrNegativeCounter, t) ∧ t.c = s.c + delta) ∧
    (∀ s : Shim, s.c = 0 →
      s.Done.1 = some Err.ErrNegativeCounter ∧ s.Done.2.c = -1) ∧
    (∀ s : Shim, ReachableNoNeg s → 0 ≤ s.c) := by
  refine ⟨?_, ?_, ?_⟩
  · intro s delta hr hm hd hsum hneg
    obtain ⟨hw, hp, hrd, _⟩ := hm
    have hv := Counter_Add_exact s.c delta hd hsum
    cases hrun : s.running with
    | true =>
      rw [Add_running s delta hr hw hp hrun, hv]
      simp only [hneg, if_true]
      exact ⟨_, rfl, hv⟩
    | false =>
      rw [Add_idle s delta hr hw hp hrun (hrd hrun), hv]
      simp only [hneg, if_true]
      exact ⟨_, rfl, hv⟩
  · intro s hc
    have hm1 : Counter.Add s.c (int64 (-1)) = -1 := by
      rw [hc]
      decide
    rw [Done_eq]
    simp [hm1, Shim.bumped]
  · intro s hs
    induction hs with
    | new => decide
    | add s delta hr r t _ hadd hr0 _ =>
      obtain ⟨hc, hiff, _⟩ := Add_post s delta hr r t hadd
      rw [hc]
      by_contra hlt
      exact hr0 (hiff.2 (by omega))
    | done s _ hr0 _ =>
      rw [Done_eq] at hr0 ⊢
      by_cases hneg : Counter.Add s.c (int64 (-1)) < 0
      · simp [hneg] at hr0
      · simp only [Shim.bumped]
        omega
    | test s t _ hstep ih =>
      rw [(workerTest_post s t hstep).1]
      exact ih
    | pend s t _ hstep ih =>
      rw [(workerPend_post s t hstep).1]
      exact ih
    | grant s t _ hstep ih =>
      rw [(workerGrant_post s t hstep).1]
      exact ih
    | park s t _ hstep ih =>
      rw [(workerPark_post s t hstep).1]
      exact ih

/-- Witness of C2 (amended): the fresh Shim with `delta = -1`, and the
state left by `New(); Add(1)`. -/
theorem negative_adjustment_applied_witness :
    New.admits ∧ inInt64 (-1) ∧ inInt64 (New.c + -1) ∧ New.c + -1 < 0 ∧
    (∃ t, New.Add (-1) none = some (some Err.ErrNegativeCounter, t) ∧ t.c = New.c + -1) ∧
    (New.Done.1 = some Err.ErrNegativeCounter ∧ New.Done.2.c = -1) ∧
    ReachableNoNeg (started 1) ∧ 0 ≤ (started 1).c :=
  ⟨⟨rfl, rfl, fun _ => rfl, fun _ => rfl⟩, ⟨by decide, by decide⟩, ⟨by decide, by decide⟩,
   by decide,
   negative_adjustment_applied.1 New (-1) none ⟨rfl, rfl, fun _ => rfl, fun _ => rfl⟩
     ⟨by decide, by decide⟩ ⟨by decide, by decide⟩ (by decide),
   negative_adjustment_applied.2.1 New rfl,
   ReachableNoNeg.add New 1 none none (started 1) ReachableNoNeg.new rfl (by decide),
   negative_adjustment_applied.2.2 (started 1)
     (ReachableNoNeg.add New 1 none none (started 1) ReachableNoNeg.new rfl (by decide))⟩

/-- C3, the code at the failing input: after `New(); Add(1)` the worker
goroutine takes the mutex and finds the counter at 1 (line 124).  At that
point `Add(-1)` cannot get past `s.m.RLock()`, while `Done()` returns nil at
once: it moves the counter to 0 and broadcasts to an empty notify list.  The
goroutine then parks in `s.cond.Wait()` and no step of it is possible any
more, with counter 0, `running` true and `ole.CoUninitialize` not called.
With `Add(-1)` in the place of `Done()`, the call goes through once the
goroutine is parked, its broadcast wakes the goroutine, and the goroutine
tears down. -/
theorem Done_without_mutex_loses_wakeup :
    New.Add 1 none = some (none, started 1) ∧
    (started 1).workerTest = some (tested 1) ∧
    (tested 1).Add (-1) none = none ∧
    (tested 1).Done = (none, tested 0) ∧
    (tested 0).workerPark = some (parked 0) ∧
    (parked 0).workerTest = none ∧ (parked 0).workerPend = none ∧
    (parked 0).workerGrant = none ∧ (parked 0).workerPark = none ∧
    (parked 0).c = 0 ∧ (parked 0).running = true ∧ (parked 0).teardowns = 0 ∧
    (tested 1).workerPark = some (parked 1) ∧
    (parked 1).Add (-1) none = some (none, started 0) ∧
    (started 0).workerTest =
      some { New with spawned := 1, inits := 1, teardowns := 1 } := by
  refine ⟨rfl, rfl, rfl, rfl, rfl, rfl, rfl, rfl, rfl, rfl, rfl, rfl, rfl, rfl, rfl⟩

/-- C4, the code at the failing input: on the running Shim left by
`New(); Add(1)` the mutex is free; `Add(-2)` returns `ErrNegativeCounter`
from the first half of `Add` and one reader still holds the mutex afterwards.
From then on the worker goroutine cannot take `s.m.Lock()`, also when the
counter is back at 0. -/
theorem Add_leaves_RLock_held :
    New.Add 1 none = some (none, started 1) ∧
    (started 1).readers = 0 ∧ (started 1).writer = false ∧
    (started 1).Add (-2) none =
      some (some Err.ErrNegativeCounter, { started (-1) with readers := 1 }) ∧
    ({ started (-1) with readers := 1 } : Shim).workerStep = none ∧
    ({ started (-1) with readers := 1 } : Shim).Add 1 none =
      some (none, { started 0 with readers := 1 }) ∧
    ({ started 0 with readers := 1 } : Shim).workerStep = none := by
  refine ⟨rfl, rfl, rfl, rfl, rfl, rfl, rfl⟩

/-- C5, the code at the failing input, `n = 2`: `Add(1); Add(1); Done()`,
then the worker goroutine takes the mutex and finds the counter at 1 (line
124), then the second `Done()`, then the goroutine enters `s.cond.Wait()`.
All four calls return nil and `ole.CoInitializeEx` has been called once, but
the broadcast of the second `Done()` came before the goroutine was on the
notify list: the goroutine stays parked with counter 0 and
`ole.CoUninitialize` is not called, also when the goroutine is given further
turns.  When the goroutine takes no step until the four calls have returned
(`usage 2`), `ole.CoUninitialize` is called once. -/
theorem usage_loses_wakeup :
    New.exec [Event.Add 1 none, Event.Add 1 none, Event.Done, Event.Test, Event.Done,
        Event.Park, Event.Wake, Event.Test, Event.Park] =
      some ([none, none, none, none], parked 0) ∧
    (parked 0).inits = 1 ∧ (parked 0).teardowns = 0 ∧ (parked 0).running = true ∧
    (parked 0).waiting = 1 ∧ (parked 0).workerStep = none ∧
    New.exec (usage 2) =
      some ([none, none, none, none],
        { New with spawned := 1, inits := 1, teardowns := 1 }) := by
  refine ⟨rfl, rfl, rfl, rfl, rfl, rfl, rfl⟩

/-- C6, the code at the failing input: the paired schedule `Add(1); Done()`
in which `Done()` falls between the worker goroutine's test of the counter
(line 124) and its entry into `s.cond.Wait()` (line 125).  Both calls return
nil, but however many further turns the goroutine is given the Shim is not
idle: the counter is 0, `running` is true, the goroutine is parked, and
`ole.CoUninitialize` has been called 0 times against 1 call of
`ole.CoInitializeEx`. -/
theorem paired_schedule_stays_running :
    paired 0 [Event.Add 1 none, Event.Test, Event.Done, Event.Park] = true ∧
    New.exec [Event.Add 1 none, Event.Test, Event.Done, Event.Park] =
      some ([none, none], parked 0) ∧
    New.exec ([Event.Add 1 none, Event.Test, Event.Done, Event.Park] ++
        [Event.Wake, Event.Test, Event.Pend, Event.Grant, Event.Park]) =
      some ([none, none], parked 0) ∧
    (parked 0).c = 0 ∧ (parked 0).running = true ∧ (parked 0).live = 1 ∧
    (parked 0).teardowns = 0 ∧ (parked 0).inits = 1 := by
  refine ⟨rfl, rfl, rfl, rfl, rfl, rfl, rfl, rfl⟩

/-- C7, the code at the failing input: `Add(1)` on the fresh Shim with
`ole.CoInitializeEx` reporting S_FALSE (code 1) returns
`ErrAlreadyInitialized` after one `ole.CoUninitialize`, with `running` false
and no goroutine left, but the counter stays at 1; the next `Add(1)`, with
`ole.CoInitializeEx` succeeding, returns nil with `running` true and counter
2, so that the two matching `Done()` calls never bring the counter to 0. -/
theorem Add_S_FALSE_keeps_counter :
    New.Add 1 (some 1) =
      some (some Err.ErrAlreadyInitialized,
        { New with c := 1, spawned := 1, inits := 1, teardowns := 1 }) ∧
    ({ New with c := 1, spawned := 1, inits := 1, teardowns := 1 } : Shim).Add 1 none =
      some (none, { New with c := 2, running := true, ready := 1, spawned := 2,
                             inits := 2, teardowns := 1 }) ∧
    New.exec [Event.Add 1 (some 1), Event.Add 1 none, Event.Done, Event.Wake] =
      some ([some Err.ErrAlreadyInitialized, none, none],
        { New with c := 1, running := true, waiting := 1, spawned := 2,
                   inits := 2, teardowns := 1 }) := by
  refine ⟨rfl, rfl, rfl⟩

/-- C8, the code at the failing input: after `New()` and an `Add(1)` whose
`ole.CoInitializeEx` fails with E_NOTIMPL (code 0x80004001), a reachable
state has counter 1 although no goroutine is alive and `running` is false. -/
theorem counter_positive_without_worker :
    New.Add 1 (some 0x80004001) =
      some (some (Err.OleError 0x80004001), { New with c := 1, spawned := 1, inits := 1 }) ∧
    Reachable { New with c := 1, spawned := 1, inits := 1 } ∧
    0 < ({ New with c := 1, spawned := 1, inits := 1 } : Shim).c ∧
    ({ New with c := 1, spawned := 1, inits := 1 } : Shim).ready +
      ({ New with c := 1, spawned := 1, inits := 1 } : Shim).waiting = 0 ∧
    ({ New with c := 1, spawned := 1, inits := 1 } : Shim).running = false := by
  refine ⟨rfl, ?_, by decide, rfl, rfl⟩
  exact Reachable.add New 1 (some 0x80004001) _ _ Reachable.new rfl

/-- C9: in every state reachable from `New()` by completed `Add` calls
(any delta, any outcome of `ole.CoInitializeEx`), `Done` calls and steps of
the worker goroutine, the number of live goroutines started by `run`
(runnable, waiting for the mutex, holding it in front of `cond.Wait`, or
parked) is 1 if `running` is true and 0 if it is false; so at most one is
alive, and a completed `Add` on a Shim that has one alive has started no
other and has not called `ole.CoInitializeEx`. -/
theorem one_worker_iff_running (s : Shim) (h : Reachable s) :
    s.live = (if s.running = true then 1 else 0) ∧
    s.live ≤ 1 ∧
    (∀ (delta : Int) (hr : Option Nat) (r : Option Err) (t : Shim),
      s.Add delta hr = some (r, t) → 0 < s.live →
        t.spawned = s.spawned ∧ t.inits = s.inits ∧ t.live = s.live) := by
  have hlive := Reachable_live s h
  refine ⟨hlive, ?_, ?_⟩
  · rw [hlive]
    split <;> decide
  · intro delta hr r t hadd hpos
    obtain ⟨_, _, hl, hc, hcase⟩ := Add_post s delta hr r t hadd
    have hrun : s.running = true := by
      cases hrun : s.running with
      | true => rfl
      | false =>
        rw [hlive, hrun] at hpos
        exact absurd hpos (by decide)
    rcases hcase with ⟨_, _, h3, h4, h5⟩ | ⟨h1, _, _⟩ | ⟨h1, _, _⟩
    · refine ⟨h4, h5, ?_⟩
      unfold Shim.live
      omega
    · rw [hrun] at h1
      cases h1
    · rw [hrun] at h1
      cases h1

/-- Witness of C9 at the state in which the worker goroutine is parked
although the counter is 0, reached by `New(); Add(1)`, the goroutine's test
of the counter, `Done()`, and the goroutine's entry into `cond.Wait`. -/
theorem one_worker_iff_running_witness :
    Reachable (parked 0) ∧
    (parked 0).live = (if (parked 0).running = true then 1 else 0) ∧
    (parked 0).live ≤ 1 ∧
    (∀ (delta : Int) (hr : Option Nat) (r : Option Err) (t : Shim),
      (parked 0).Add delta hr = some (r, t) → 0 < (parked 0).live →
        t.spawned = (parked 0).spawned ∧ t.inits = (parked 0).inits ∧
        t.live = (parked 0).live) :=
  ⟨Reachable.park (tested 0) (parked 0)
      (Reachable.done (tested 1)
        (Reachable.test (started 1) (tested 1)
          (Reachable.add New 1 none none (started 1) Reachable.new rfl) rfl)) rfl,
   one_worker_iff_running (parked 0)
     (Reachable.park (tested 0) (parked 0)
        (Reachable.done (tested 1)
          (Reachable.test (started 1) (tested 1)
            (Reachable.add New 1 none none (started 1) Reachable.new rfl) rfl)) rfl)⟩

/-- C10: on the fresh Shim, `Done()` returns `ErrNegativeCounter`; the next
`Add(1)`, with `ole.CoInitializeEx` succeeding, returns nil and leaves the
counter at 0 with `running` true and the worker goroutine runnable; the
worker's next pass clears `running` and calls `ole.CoUninitialize`, with no
further `Done()`. -/
theorem Add_after_failed_Done_not_held :
    New.Done = (some Err.ErrNegativeCounter, { New with c := -1 }) ∧
    ({ New with c := -1 } : Shim).Add 1 none = some (none, started 0) ∧
    (started 0).c = 0 ∧ (started 0).running = true ∧ (started 0).teardowns = 0 ∧
    (started 0).workerStep =
      some { New with spawned := 1, inits := 1, teardowns := 1 } ∧
    ({ New with spawned := 1, inits := 1, teardowns := 1 } : Shim).running = false := by
  refine ⟨rfl, rfl, rfl, rfl, rfl, rfl, rfl⟩

end Comshim
